import Mathlib

/-
Verification of the sampling-and-aggregation engine of builtin-htop.c
(hist_entry based top). The definitions below are a shallow embedding of
the C source; external helpers that live outside the file under
verification are modelled from the specification and marked as such in
their doc comments.
-/

set_option maxHeartbeats 1000000

namespace Htop

/-! ## Error and ABI constants (from errno.h and the perf event ABI) -/

def EPERM : Nat := 1
def ENOENT : Nat := 2
def EACCES : Nat := 13
def EINVAL : Nat := 22

def PERF_TYPE_HARDWARE : Nat := 0
def PERF_TYPE_SOFTWARE : Nat := 1
def PERF_COUNT_HW_CPU_CYCLES : Nat := 0
def PERF_COUNT_SW_CPU_CLOCK : Nat := 0

def PERF_SAMPLE_IP : Nat := 1
def PERF_SAMPLE_TID : Nat := 2
def PERF_SAMPLE_ID : Nat := 64
def PERF_SAMPLE_PERIOD : Nat := 256
def PERF_FORMAT_ID : Nat := 4
def PERF_RECORD_SAMPLE : Nat := 9

/-! ## Symbol filter (builtin-htop.c lines 49-92) -/

/-- The fixed denylist of idle symbols, `skip_symbols` in the source
(lines 49-61). -/
def skip_symbols : List String :=
  ["default_idle", "native_safe_halt", "cpu_idle", "enter_idle",
   "exit_idle", "mwait_idle", "mwait_idle_with_hints", "poll_idle",
   "ppc64_runlatch_off", "pseries_dedicated_idle_sleep"]

/-- Strip one leading dot from a symbol name, as done at lines 72-73 of
the source for ppc64 function-descriptor names. -/
def stripDot (s : String) : String :=
  match s.data with
  | '.' :: rest => String.mk rest
  | _ => s

/-- Boolean embedding of strncmp-based leading-match: needle is a leading
segment of the name. -/
def strPrefixOf (needle s : String) : Bool := needle.data.isPrefixOf s.data

/-- Needle occurs as a contiguous run somewhere in the haystack. -/
def listInfixOf (needle : List Char) : List Char → Bool
  | [] => needle.isEmpty
  | c :: rest => needle.isPrefixOf (c :: rest) || listInfixOf needle rest

/-- Boolean embedding of strstr: needle occurs somewhere inside the name. -/
def strInfixOf (needle s : String) : Bool := listInfixOf needle.data s.data

/-- Core of symbol_filter, operating on the already dot-stripped name.
First component: the C function returns 1 (symbol rejected from the
table); second component: sym.ignore is set. Mirrors lines 75-91. -/
def symbolFilterCore (n : String) : Bool × Bool :=
  if n = "_text" || n = "_etext" || n = "_sinittext"
     || strPrefixOf "init_module" n || strPrefixOf "cleanup_module" n
     || strInfixOf "_text_start" n || strInfixOf "_text_end" n
  then (true, false)
  else (false, skip_symbols.contains n)

/-- symbol_filter (source lines 63-92): strips a leading dot, then
classifies the name. -/
def symbol_filter (name : String) : Bool × Bool :=
  symbolFilterCore (stripDot name)

/-! ## Samples and histogram tables -/

/-- A decoded and symbol-resolved sample as seen by
perf_event__process_sample: the aggregation key (resolved execution
location), the sample period, and the optionally resolved symbol name
(al.sym, none when unresolved). -/
structure Sample where
  key : String
  period : Nat
  sym : Option String
deriving DecidableEq

/-- The al.sym and al.sym.ignore test of source line 130: the ignore flag
was set at symbol-load time by symbol_filter. -/
def symIgnore (s : Sample) : Bool :=
  match s.sym with
  | none => false
  | some n => (symbol_filter n).2

/-- One histogram entry: resolved location key and accumulated weight. -/
structure HistEntry where
  key : String
  period : Nat
deriving DecidableEq

/-- One histogram table: the entries, the aggregate total_period and the
per-record-type event counters (evsel.hists and its stats). -/
structure Hists where
  entries : List HistEntry
  total_period : Nat
  nr_events : List Nat
deriving DecidableEq

def emptyHists : Hists := ⟨[], 0, List.replicate 16 0⟩

/-- Modelled from the spec: __hists__add_entry (util/hist.c, not under
src/) — amortized insert-or-accumulate: the entry matching the key has
its weight incremented by the period, and a new entry is created on the
first sample for its key. -/
def hists__add_entry : List HistEntry → String → Nat → List HistEntry
  | [], k, p => [⟨k, p⟩]
  | e :: rest, k, p =>
      if e.key == k then ⟨e.key, e.period + p⟩ :: rest
      else e :: hists__add_entry rest k p

/-- Modelled from the spec: hists__inc_nr_events (util/hist.c, not under
src/) — increments the matching record-type counter. -/
def hists__inc_nr_events (l : List Nat) (t : Nat) : List Nat :=
  l.set t (l.getD t 0 + 1)

/-- perf_session__add_hist_entry (source lines 99-114): adds the sample
into the evsel histogram, bumps the evsel total_period, the session-wide
total_period and the SAMPLE record counter. -/
def perf_session__add_hist_entry (h : Hists) (sessionTotal : Nat)
    (key : String) (period : Nat) : Hists × Nat :=
  ({ entries := hists__add_entry h.entries key period,
     total_period := h.total_period + period,
     nr_events := hists__inc_nr_events h.nr_events PERF_RECORD_SAMPLE },
   sessionTotal + period)

/-- perf_event__process_sample (source lines 117-139). The input is the
outcome of the external perf_event__preprocess_sample: none models a
preprocessing failure (record dropped with an error message, flagged by
the Bool), some s a successfully resolved sample. Ignored symbols are
dropped before aggregation. -/
def perf_event__process_sample (h : Hists) (sessionTotal : Nat)
    (pre : Option Sample) : (Hists × Nat) × Bool :=
  match pre with
  | none => ((h, sessionTotal), true)
  | some s =>
      if symIgnore s then ((h, sessionTotal), false)
      else (perf_session__add_hist_entry h sessionTotal s.key s.period, false)

/-- Repeated sample processing, as driven by the mmap consumption loop
for records routed to one evsel. -/
def processSamples : Hists × Nat → List (Option Sample) → Hists × Nat
  | st, [] => st
  | st, pre :: rest =>
      processSamples (perf_event__process_sample st.1 st.2 pre).1 rest

/-! ## Collapse and resort (spec-modelled, util/hist.c is not under src/) -/

/-- Modelled from the spec: hists__collapse_resort (util/hist.c, not
under src/) — merges any entries whose keys are equal under the
comparison policy, accumulating their weights. -/
def collapseEntries (l : List HistEntry) : List HistEntry :=
  l.foldl (fun acc e => hists__add_entry acc e.key e.period) []

/-- Stable descending insertion: an existing entry with weight at least
the new weight keeps its place, so ties keep insertion order. -/
def insertRanked (e : HistEntry) : List HistEntry → List HistEntry
  | [] => [e]
  | x :: xs => if e.period ≤ x.period then x :: insertRanked e xs
               else e :: x :: xs

/-- Modelled from the spec: hists__output_resort (util/hist.c, not under
src/) — re-orders entries by descending weight with a deterministic
secondary key (insertion order). -/
def outputResort (l : List HistEntry) : List HistEntry :=
  l.foldl (fun acc e => insertRanked e acc) []

/-- The collapse-then-resort pass performed per table by
perf_evlist__fprintf_hists (source lines 182-183). -/
def collapse_and_resort (h : Hists) : Hists :=
  { h with entries := outputResort (collapseEntries h.entries) }

/-- Accumulated weight of a key in an entry list. -/
def weightOf (l : List HistEntry) (k : String) : Nat :=
  match l.find? (fun e => e.key == k) with
  | some e => e.period
  | none => 0

/-- Aggregation of a period sequence into a single key, starting from an
empty table. -/
def accumulateKey (k : String) (ps : List Nat) : List HistEntry :=
  ps.foldl (fun acc p => hists__add_entry acc k p) []

/-! ## Event-list state and record demultiplexing (source lines 141-164) -/

/-- Shared state touched by the mmap consumption loop: the open evsels
(each with the sample identifiers it owns and its histogram table), the
session-wide total_period and a count of error messages emitted. -/
structure EvState where
  evsels : List (List Nat × Hists)
  sessionTotal : Nat
  errLog : Nat
deriving DecidableEq

/-- perf_evlist__id2evsel (util/evlist.c behaviour at its interface):
index of the evsel owning the sample identifier, none when no open
descriptor owns it. -/
def perf_evlist__id2evsel (evs : List (List Nat × Hists)) (sid : Nat) :
    Option Nat :=
  evs.findIdx? (fun e => e.1.contains sid)

/-- Processing of one sample routed to evsel index i, updating that
evsel histogram and the session total (source line 160 calling
perf_event__process_sample). -/
def processSampleAt (st : EvState) (i : Nat) (pre : Option Sample) :
    EvState :=
  match st.evsels[i]? with
  | none => st
  | some ev =>
      let r := perf_event__process_sample ev.2 st.sessionTotal pre
      { evsels := st.evsels.set i (ev.1, r.1.1),
        sessionTotal := r.1.2,
        errLog := st.errLog + (if r.2 then 1 else 0) }

/-- One raw record as classified by perf_session__parse_sample and the
record header: a parse failure, or a parsed record of some type carrying
a sample identifier and (for sample records) the preprocessing outcome. -/
inductive RawRecord where
  | parseFail (err : Int)
  | parsed (rtype : Nat) (sid : Nat) (pre : Option Sample)
deriving DecidableEq

/-- Body of the perf_evlist__mmap_process_events_idx while loop (source
lines 149-163) for one record. otherFn is the external
perf_event__process collaborator handling non-sample records. -/
def perf_evlist__process_event (otherFn : EvState → EvState)
    (st : EvState) (r : RawRecord) : EvState :=
  match r with
  | .parseFail _ => { st with errLog := st.errLog + 1 }
  | .parsed rtype sid pre =>
      if rtype = PERF_RECORD_SAMPLE then
        match perf_evlist__id2evsel st.evsels sid with
        | some i => processSampleAt st i pre
        | none => st
      else otherFn st

/-! ## Event descriptors and negotiation (source lines 226-298, 365-428) -/

/-- The perf_event_attr fields this command touches. periodOrFreq models
the C union of sample_period and sample_freq (one storage location,
interpreted through the freqBit flag). -/
structure Attr where
  etype : Nat
  config : Nat
  periodOrFreq : Nat
  freqBit : Bool
  sample_type : Nat
  read_format : Nat
  mmapFlag : Bool
  inheritFlag : Bool
deriving DecidableEq

/-- The substitution of source lines 268-269: hardware cycles becomes
software cpu-clock; every other field is untouched. -/
def fallbackAttr (a : Attr) : Attr :=
  { a with etype := PERF_TYPE_SOFTWARE, config := PERF_COUNT_SW_CPU_CLOCK }

/-- How one descriptor open round ends. -/
inductive OpenFail where
  | priv
  | unsupported (a : Attr)
  | otherErr (err : Nat)
deriving DecidableEq

/-- Result of the try_again loop for one descriptor: success with the
final attr and the number of substitutions taken, or a fatal failure. -/
inductive OpenResult where
  | ok (final : Attr) (nSubst : Nat)
  | fail (f : OpenFail)
deriving DecidableEq

/-- The try_again loop of perf_evsel__open handling (source lines
248-285). o is the kernel open oracle: none on success, some errno on
failure. The EPERM and EACCES check comes first, then the hardware
cycles substitution (regardless of the error value), then the ENOENT
report, then the generic report. -/
def evselOpenLoop (o : Attr → Option Nat) (a : Attr) (n : Nat) :
    OpenResult :=
  match o a with
  | none => .ok a n
  | some err =>
    if err = EPERM ∨ err = EACCES then .fail .priv
    else if h : a.etype = PERF_TYPE_HARDWARE ∧
                a.config = PERF_COUNT_HW_CPU_CYCLES then
      evselOpenLoop o (fallbackAttr a) (n + 1)
    else if err = ENOENT then .fail (.unsupported a)
    else .fail (.otherErr err)
termination_by (if a.etype = PERF_TYPE_HARDWARE then 1 else 0)
decreasing_by
  simp [fallbackAttr, PERF_TYPE_HARDWARE, PERF_TYPE_SOFTWARE, h.1]

/-- The per-descriptor attribute setup of perf_evlist__start (source
lines 230-247): sample_type is rebuilt from IP and TID, frequency mode
is turned on when a nonzero frequency is configured, the sample
identifier is added when the list holds more than one descriptor, and
the mmap and inherit flags are set. -/
def startAttr (freq nrEntries : Nat) (inh : Bool) (a : Attr) : Attr :=
  let a1 := { a with sample_type := PERF_SAMPLE_IP ||| PERF_SAMPLE_TID }
  let a2 :=
    if freq ≠ 0 then
      { a1 with sample_type := a1.sample_type ||| PERF_SAMPLE_PERIOD,
                freqBit := true, periodOrFreq := freq }
    else a1
  let a3 :=
    if nrEntries > 1 then
      { a2 with sample_type := a2.sample_type ||| PERF_SAMPLE_ID,
                read_format := a2.read_format ||| PERF_FORMAT_ID }
    else a2
  { a3 with mmapFlag := true, inheritFlag := inh }

/-- Opening every descriptor of the list in order; the first fatal
failure aborts the whole negotiation (source loop at lines 230-286). -/
def openAll (o : Attr → Option Nat) :
    List Attr → Except OpenFail (List Attr)
  | [] => .ok []
  | a :: rest =>
    match evselOpenLoop o a 0 with
    | .ok fin _ =>
        match openAll o rest with
        | .ok fins => .ok (fin :: fins)
        | .error f => .error f
    | .fail f => .error f

/-- The frequency and period adjustment of cmd_htop (source lines
396-406): a user-specified count overrides the frequency; with both zero
the command aborts. Returns the resulting (default_interval, freq). -/
def adjustRates (di freq : Nat) : Option (Nat × Nat) :=
  if di ≠ 0 then some (di, 0)
  else if freq ≠ 0 then some (freq, freq)
  else none

/-- The default-period fill of cmd_htop (source lines 412-418): a
descriptor already carrying a nonzero period keeps it, the rest receive
the default interval. -/
def fillPeriod (di : Nat) (a : Attr) : Attr :=
  if a.periodOrFreq ≠ 0 then a else { a with periodOrFreq := di }

/-- Full per-descriptor configuration: cmd_htop period fill followed by
the perf_evlist__start attribute setup. -/
def configureAttr (di f nrEntries : Nat) (inh : Bool) (a : Attr) : Attr :=
  startAttr f nrEntries inh (fillPeriod di a)

/-- Outcome of the command up to the end of event negotiation. -/
inductive CmdResult where
  | configError (code : Int)
  | startError (f : OpenFail)
  | started (attrs : List Attr)
deriving DecidableEq

/-- cmd_htop followed by perf_evlist__start (source lines 365-428 and
226-298), restricted to the configuration and negotiation the claims
are about: rate adjustment, period fill, attribute setup, opening. -/
def cmd_htop_model (o : Attr → Option Nat) (di freq : Nat) (inh : Bool)
    (attrs : List Attr) : CmdResult :=
  match adjustRates di freq with
  | none => .configError (-(EINVAL : Int))
  | some (di2, f2) =>
    match openAll o (attrs.map (configureAttr di2 f2 attrs.length inh)) with
    | .error f => .startError f
    | .ok final => .started final

/-- The two mode predicates of the data model: frequency mode is the
freq bit; fixed-period mode is the freq bit clear with a nonzero period
in the shared storage. -/
def freqModeActive (a : Attr) : Prop := a.freqBit = true

def periodModeActive (a : Attr) : Prop :=
  a.freqBit = false ∧ a.periodOrFreq ≠ 0

/-! ## The steady-state sampling loop (source lines 329-337) -/

/-- Outcome of one iteration of the steady-state while loop. -/
structure IterOutcome where
  exitLoop : Bool
  waited : Bool
  newTotal : Nat
deriving DecidableEq

/-- The bounded idle wait used by the loop, in milliseconds. -/
def idleWaitMsecs : Nat := 100

/-- One iteration of the steady-state loop (source lines 329-337): the
total before the drain is compared with the total after it; only on no
progress is the bounded poll performed, and the loop breaks exactly when
that poll returns a negative (error) value. -/
def samplingLoopIter (total drainedTotal : Nat) (pollFn : Nat → Int) :
    IterOutcome :=
  if total = drainedTotal then
    if pollFn idleWaitMsecs < 0 then ⟨true, true, drainedTotal⟩
    else ⟨false, true, drainedTotal⟩
  else ⟨false, false, drainedTotal⟩

/-! ## Concrete fixtures used by witnesses and counterexamples -/

def attr0 : Attr :=
  ⟨PERF_TYPE_HARDWARE, PERF_COUNT_HW_CPU_CYCLES, 0, false, 0, 0, false, false⟩

def cyclesAttr : Attr :=
  ⟨PERF_TYPE_HARDWARE, PERF_COUNT_HW_CPU_CYCLES, 1000, true, 0, 0, true, false⟩

/-- Oracle failing every hardware open with EINVAL (not an
unsupported-event error) and accepting everything else. -/
def einvalOracle : Attr → Option Nat :=
  fun a => if a.etype = PERF_TYPE_HARDWARE then some EINVAL else none

/-- Oracle failing every open with ENOENT. -/
def enoentOracle : Attr → Option Nat := fun _ => some ENOENT

def sampleA1 : Sample := ⟨"A", 10, some "A"⟩
def sampleB : Sample := ⟨"B", 5, some "B"⟩
def sampleA2 : Sample := ⟨"A", 7, some "A"⟩

def evStateW : EvState := ⟨[([1], emptyHists)], 0, 0⟩

/-! ## Helper lemmas about the open loop -/

theorem evselOpenLoop_success (o : Attr → Option Nat) (a : Attr) (n : Nat)
    (ho : o a = none) : evselOpenLoop o a n = .ok a n := by
  unfold evselOpenLoop
  rw [ho]

theorem evselOpenLoop_priv (o : Attr → Option Nat) (a : Attr) (n err : Nat)
    (ho : o a = some err) (hp : err = EPERM ∨ err = EACCES) :
    evselOpenLoop o a n = .fail .priv := by
  unfold evselOpenLoop
  rw [ho]
  simp [hp]

theorem evselOpenLoop_fallback (o : Attr → Option Nat) (a : Attr)
    (n err : Nat) (ho : o a = some err)
    (hp : ¬(err = EPERM ∨ err = EACCES))
    (hcyc : a.etype = PERF_TYPE_HARDWARE ∧
            a.config = PERF_COUNT_HW_CPU_CYCLES) :
    evselOpenLoop o a n = evselOpenLoop o (fallbackAttr a) (n + 1) := by
  conv_lhs => unfold evselOpenLoop
  rw [ho]
  simp [hp, hcyc]

theorem evselOpenLoop_unsupported (o : Attr → Option Nat) (a : Attr)
    (n : Nat) (ho : o a = some ENOENT)
    (hcyc : ¬(a.etype = PERF_TYPE_HARDWARE ∧
              a.config = PERF_COUNT_HW_CPU_CYCLES)) :
    evselOpenLoop o a n = .fail (.unsupported a) := by
  unfold evselOpenLoop
  rw [ho]
  simp [hcyc, ENOENT, EPERM, EACCES]

theorem evselOpenLoop_noHw_ok (o : Attr → Option Nat) (b : Attr)
    (m : Nat) (hb : b.etype ≠ PERF_TYPE_HARDWARE) :
    ∀ fin k, evselOpenLoop o b m = .ok fin k → fin = b ∧ k = m := by
  intro fin k h
  unfold evselOpenLoop at h
  cases hob : o b with
  | none =>
      rw [hob] at h
      simp only [OpenResult.ok.injEq] at h
      exact ⟨h.1.symm, h.2.symm⟩
  | some err =>
      rw [hob] at h
      by_cases hp : err = EPERM ∨ err = EACCES
      · simp [hp] at h
      · have hcyc : ¬(b.etype = PERF_TYPE_HARDWARE ∧
                      b.config = PERF_COUNT_HW_CPU_CYCLES) := by
          intro hc
          exact hb hc.1
        by_cases he : err = ENOENT
        · simp [hp, hcyc, he, ENOENT, EPERM, EACCES] at h
        · simp [hp, hcyc, he] at h

theorem evselOpenLoop_ok_shape (o : Attr → Option Nat) (a : Attr)
    (n : Nat) : ∀ fin k, evselOpenLoop o a n = .ok fin k →
    (fin = a ∧ k = n) ∨ (fin = fallbackAttr a ∧ k = n + 1) := by
  intro fin k h
  by_cases hcyc : a.etype = PERF_TYPE_HARDWARE ∧
                  a.config = PERF_COUNT_HW_CPU_CYCLES
  · cases hob : o a with
    | none =>
        rw [evselOpenLoop_success o a n hob] at h
        simp only [OpenResult.ok.injEq] at h
        exact Or.inl ⟨h.1.symm, h.2.symm⟩
    | some err =>
        by_cases hp : err = EPERM ∨ err = EACCES
        · rw [evselOpenLoop_priv o a n err hob hp] at h
          simp at h
        · rw [evselOpenLoop_fallback o a n err hob hp hcyc] at h
          have hfb : (fallbackAttr a).etype ≠ PERF_TYPE_HARDWARE := by
            simp [fallbackAttr, PERF_TYPE_SOFTWARE, PERF_TYPE_HARDWARE]
          exact Or.inr (evselOpenLoop_noHw_ok o (fallbackAttr a) (n + 1)
            hfb fin k h)
  · cases hob : o a with
    | none =>
        rw [evselOpenLoop_success o a n hob] at h
        simp only [OpenResult.ok.injEq] at h
        exact Or.inl ⟨h.1.symm, h.2.symm⟩
    | some err =>
        by_cases hp : err = EPERM ∨ err = EACCES
        · rw [evselOpenLoop_priv o a n err hob hp] at h
          simp at h
        · unfold evselOpenLoop at h
          rw [hob] at h
          by_cases he : err = ENOENT
          · simp [hp, hcyc, he, ENOENT, EPERM, EACCES] at h
          · simp [hp, hcyc, he] at h

/-- Every field of the descriptor other than the type and config — in
particular the period/frequency storage, the frequency bit, the
sample_type and the read_format — survives the substitution. -/
theorem fallbackAttr_preserves (a : Attr) :
    (fallbackAttr a).periodOrFreq = a.periodOrFreq ∧
    (fallbackAttr a).freqBit = a.freqBit ∧
    (fallbackAttr a).sample_type = a.sample_type ∧
    (fallbackAttr a).read_format = a.read_format :=
  ⟨rfl, rfl, rfl, rfl⟩

/-- C1 (amended): during event negotiation, a descriptor whose open
attempt fails with any error other than an insufficient-privilege error
while it requests the default hardware cycle-count type is substituted
with the software cpu-clock-tick type and config, preserving the
period/frequency settings, and retried exactly once; a further
unsupported-event error, on the substituted descriptor or on any
descriptor not requesting hardware cycles, aborts negotiation fatally.
Substitution is triggered by the descriptor type, not only by the
unsupported-event error class. -/
theorem C1_cycles_fallback_exactly_once (o : Attr → Option Nat)
    (a : Attr) (n err : Nat) (ho : o a = some err)
    (hp : ¬(err = EPERM ∨ err = EACCES))
    (ht : a.etype = PERF_TYPE_HARDWARE)
    (hc : a.config = PERF_COUNT_HW_CPU_CYCLES) :
    evselOpenLoop o a n = evselOpenLoop o (fallbackAttr a) (n + 1)
    ∧ (fallbackAttr a).etype = PERF_TYPE_SOFTWARE
    ∧ (fallbackAttr a).config = PERF_COUNT_SW_CPU_CLOCK
    ∧ (fallbackAttr a).periodOrFreq = a.periodOrFreq
    ∧ (fallbackAttr a).freqBit = a.freqBit
    ∧ (o (fallbackAttr a) = some ENOENT →
        evselOpenLoop o a n = .fail (.unsupported (fallbackAttr a)))
    ∧ (∀ fin k, evselOpenLoop o a n = .ok fin k → k = n + 1)
    ∧ (∀ (b : Attr) (m : Nat),
        ¬(b.etype = PERF_TYPE_HARDWARE ∧
          b.config = PERF_COUNT_HW_CPU_CYCLES) →
        o b = some ENOENT →
        evselOpenLoop o b m = .fail (.unsupported b)) := by
  have hfb : (fallbackAttr a).etype ≠ PERF_TYPE_HARDWARE := by
    simp [fallbackAttr, PERF_TYPE_SOFTWARE, PERF_TYPE_HARDWARE]
  have h1 := evselOpenLoop_fallback o a n err ho hp ⟨ht, hc⟩
  refine ⟨h1, rfl, rfl, rfl, rfl, ?_, ?_, ?_⟩
  · intro h2
    rw [h1]
    exact evselOpenLoop_unsupported o (fallbackAttr a) (n + 1) h2
      (fun hcc => hfb hcc.1)
  · intro fin k hk
    rw [h1] at hk
    exact (evselOpenLoop_noHw_ok o (fallbackAttr a) (n + 1) hfb fin k hk).2
  · intro b m hb hob
    exact evselOpenLoop_unsupported o b m hob hb

/-- C1 counterexample: an open failure with EINVAL — not an
unsupported-event (ENOENT-class) error — on a default hardware
cycle-count descriptor still triggers the substitution, and negotiation
succeeds on the substituted descriptor with exactly one substitution
recorded. This refutes the part of the claim stating that substitution
happens only for the unsupported-event error class. -/
theorem C1_counterexample :
    einvalOracle cyclesAttr = some EINVAL ∧ EINVAL ≠ ENOENT ∧
    evselOpenLoop einvalOracle cyclesAttr 0 =
      .ok (fallbackAttr cyclesAttr) 1 := by
  refine ⟨rfl, by decide, ?_⟩
  have h1 := evselOpenLoop_fallback einvalOracle cyclesAttr 0 EINVAL rfl
    (by decide) ⟨rfl, rfl⟩
  rw [h1]
  exact evselOpenLoop_success _ _ _ rfl

/-- C1 witness: with every open failing as unsupported, the hardware
cycle-count descriptor is substituted once and the second
unsupported-event failure is fatal. -/
theorem C1_witness :
    evselOpenLoop enoentOracle cyclesAttr 0 =
      .fail (.unsupported (fallbackAttr cyclesAttr)) :=
  (C1_cycles_fallback_exactly_once enoentOracle cyclesAttr 0 ENOENT rfl
    (by decide) rfl rfl).2.2.2.2.2.1 rfl

/-! ## Total-period accounting -/

theorem process_sample_ignored (h : Hists) (t : Nat) (s : Sample)
    (hi : symIgnore s = true) :
    perf_event__process_sample h t (some s) = ((h, t), false) := by
  simp [perf_event__process_sample, hi]

theorem process_sample_counted (h : Hists) (t : Nat) (s : Sample)
    (hi : symIgnore s = false) :
    perf_event__process_sample h t (some s) =
      ((⟨hists__add_entry h.entries s.key s.period,
         h.total_period + s.period,
         hists__inc_nr_events h.nr_events PERF_RECORD_SAMPLE⟩,
        t + s.period), false) := by
  simp [perf_event__process_sample, hi, perf_session__add_hist_entry]

theorem processSamples_total (l : List Sample) : ∀ st : Hists × Nat,
    (processSamples st (l.map some)).1.total_period =
      st.1.total_period +
        ((l.filter (fun s => symIgnore s = false)).map Sample.period).sum
    ∧ (processSamples st (l.map some)).2 =
      st.2 +
        ((l.filter (fun s => symIgnore s = false)).map Sample.period).sum := by
  induction l with
  | nil => intro st; simp [processSamples]
  | cons s rest ih =>
    intro st
    cases hi : symIgnore s with
    | true =>
        have hstep : (perf_event__process_sample st.1 st.2 (some s)).1 =
            (st.1, st.2) := by
          rw [process_sample_ignored st.1 st.2 s hi]
        simp only [List.map_cons, processSamples, hstep,
          List.filter_cons, hi]
        simpa using ih (st.1, st.2)
    | false =>
        have hstep := process_sample_counted st.1 st.2 s hi
        simp only [List.map_cons, processSamples, hstep,
          List.filter_cons, hi, List.map_cons, List.sum_cons]
        have := ih (⟨hists__add_entry st.1.entries s.key s.period,
          st.1.total_period + s.period,
          hists__inc_nr_events st.1.nr_events PERF_RECORD_SAMPLE⟩,
          st.2 + s.period)
        constructor
        · rw [this.1]; simp; omega
        · rw [this.2]; simp; omega

/-- C2: total_period is monotonically non-decreasing across every
sample-processing step, and after aggregating any sequence of samples it
has grown by exactly the sum of the periods of the non-ignored samples;
a sample whose resolved symbol is marked ignorable leaves the table and
both totals unchanged. -/
theorem C2_total_period_invariant :
    (∀ (h : Hists) (t : Nat) (pre : Option Sample),
       h.total_period ≤
         ((perf_event__process_sample h t pre).1.1).total_period)
    ∧ (∀ (st : Hists × Nat) (l : List Sample),
       (processSamples st (l.map some)).1.total_period =
         st.1.total_period +
           ((l.filter (fun s => symIgnore s = false)).map Sample.period).sum)
    ∧ (∀ (h : Hists) (t : Nat) (s : Sample), symIgnore s = true →
       (perf_event__process_sample h t (some s)).1 = (h, t)) := by
  refine ⟨?_, ?_, ?_⟩
  · intro h t pre
    cases pre with
    | none => simp [perf_event__process_sample]
    | some s =>
        cases hi : symIgnore s with
        | true => rw [process_sample_ignored h t s hi]
        | false =>
            rw [process_sample_counted h t s hi]
            exact Nat.le_add_right _ _
  · intro st l
    exact (processSamples_total l st).1
  · intro h t s hi
    rw [process_sample_ignored h t s hi]

/-- C2 witness: a cpu_idle sample is dropped with the table and totals
untouched. -/
theorem C2_witness :
    (perf_event__process_sample emptyHists 0
      (some ⟨"cpu_idle", 5, some "cpu_idle"⟩)).1 = (emptyHists, 0) :=
  C2_total_period_invariant.2.2 emptyHists 0
    ⟨"cpu_idle", 5, some "cpu_idle"⟩ (by decide)

/-- C3: aggregating symbol A with period 10, symbol B with period 5 and
symbol A with period 7, in that order, into one empty histogram table
and then collapsing and resorting yields exactly the two entries A with
weight 17 before B with weight 5, and the table total_period is 22. -/
theorem C3_end_to_end :
    (collapse_and_resort (processSamples (emptyHists, 0)
        [some sampleA1, some sampleB, some sampleA2]).1).entries =
      [⟨"A", 17⟩, ⟨"B", 5⟩]
    ∧ (collapse_and_resort (processSamples (emptyHists, 0)
        [some sampleA1, some sampleB, some sampleA2]).1).total_period
        = 22 := by
  decide

/-! ## The idle-symbol denylist -/

theorem symbolFilterCore_skip (n : String) (hmem : n ∈ skip_symbols) :
    symbolFilterCore n = (false, true) := by
  simp only [skip_symbols, List.mem_cons, List.not_mem_nil, or_false]
    at hmem
  rcases hmem with h | h | h | h | h | h | h | h | h | h <;>
    rw [h] <;> decide

/-- C5: a sample whose resolved symbol name, once one leading dot is
stripped, is exactly an entry of the fixed idle-symbol denylist is
dropped before aggregation: the histogram table (entries and counters)
and both totals are unchanged, and no error is flagged. -/
theorem C5_denylist_dropped (h : Hists) (t : Nat) (s : Sample)
    (name : String) (hs : s.sym = some name)
    (hmem : stripDot name ∈ skip_symbols) :
    perf_event__process_sample h t (some s) = ((h, t), false) := by
  have hig : symIgnore s = true := by
    simp [symIgnore, hs, symbol_filter, symbolFilterCore_skip _ hmem]
  exact process_sample_ignored h t s hig

/-- C5 witness: a sample resolving to .poll_idle (denylist entry after
dot stripping) is dropped from an empty table. -/
theorem C5_witness :
    perf_event__process_sample emptyHists 0
      (some ⟨"x", 7, some ".poll_idle"⟩) = ((emptyHists, 0), false) :=
  C5_denylist_dropped emptyHists 0 ⟨"x", 7, some ".poll_idle"⟩
    ".poll_idle" rfl (by decide)

/-! ## Per-key accumulation -/

theorem weightOf_add_entry (l : List HistEntry) (k : String) (p : Nat) :
    weightOf (hists__add_entry l k p) k = weightOf l k + p := by
  induction l with
  | nil => simp [hists__add_entry, weightOf]
  | cons e rest ih =>
      by_cases he : (e.key == k) = true
      · simp [hists__add_entry, he, weightOf, List.find?_cons]
      · have hne : (e.key == k) = false := by simpa using he
        simp only [hists__add_entry, hne, Bool.false_eq_true,
          if_false]
        unfold weightOf
        simp only [List.find?_cons, hne]
        have hih := ih
        unfold weightOf at hih
        exact hih

theorem weightOf_accumulate (k : String) (ps : List Nat) :
    ∀ l : List HistEntry,
    weightOf (ps.foldl (fun acc p => hists__add_entry acc k p) l) k =
      weightOf l k + ps.sum := by
  induction ps with
  | nil => intro l; simp
  | cons p rest ih =>
      intro l
      simp only [List.foldl_cons, List.sum_cons]
      rw [ih (hists__add_entry l k p), weightOf_add_entry]
      omega

/-- C8: aggregating periods p1 … pn into a single histogram key gives
that key a final weight equal to the sum of the periods, and any
permutation of the insertion order gives the same final weight. -/
theorem C8_accumulation_commutes (k : String) (ps qs : List Nat)
    (hperm : ps.Perm qs) :
    weightOf (accumulateKey k ps) k = ps.sum
    ∧ weightOf (accumulateKey k qs) k = weightOf (accumulateKey k ps) k := by
  have h1 : weightOf (accumulateKey k ps) k = ps.sum := by
    unfold accumulateKey
    rw [weightOf_accumulate]
    simp [weightOf]
  have h2 : weightOf (accumulateKey k qs) k = qs.sum := by
    unfold accumulateKey
    rw [weightOf_accumulate]
    simp [weightOf]
  exact ⟨h1, by rw [h1, h2, hperm.sum_eq]⟩

/-- C8 witness: periods 10, 5, 7 against the permutation 7, 10, 5. -/
theorem C8_witness :
    weightOf (accumulateKey "f" [10, 5, 7]) "f" = [10, 5, 7].sum
    ∧ weightOf (accumulateKey "f" [7, 10, 5]) "f" =
        weightOf (accumulateKey "f" [10, 5, 7]) "f" :=
  C8_accumulation_commutes "f" [10, 5, 7] [7, 10, 5] (by decide)

/-! ## Sampling-mode configuration -/

theorem fillPeriod_freqBit (di : Nat) (a : Attr) :
    (fillPeriod di a).freqBit = a.freqBit := by
  unfold fillPeriod
  split <;> rfl

theorem fillPeriod_periodOrFreq (di : Nat) (a : Attr) :
    (fillPeriod di a).periodOrFreq =
      if a.periodOrFreq ≠ 0 then a.periodOrFreq else di := by
  unfold fillPeriod
  split <;> simp_all

theorem startAttr_freqBit (f nr : Nat) (inh : Bool) (a : Attr) :
    (startAttr f nr inh a).freqBit = if f ≠ 0 then true else a.freqBit := by
  by_cases hf : f ≠ 0 <;> by_cases hn : nr > 1 <;>
    simp [startAttr, hf, hn]

theorem startAttr_periodOrFreq (f nr : Nat) (inh : Bool) (a : Attr) :
    (startAttr f nr inh a).periodOrFreq =
      if f ≠ 0 then f else a.periodOrFreq := by
  by_cases hf : f ≠ 0 <;> by_cases hn : nr > 1 <;>
    simp [startAttr, hf, hn]

/-- C4: after configuration, every descriptor is in exactly one of
frequency mode and fixed-period mode; when a global sampling frequency
is requested, a descriptor without an explicit fixed period ends up in
frequency mode carrying that rate, and otherwise it receives the default
fixed period with frequency mode off; the open-time substitution never
changes the mode or the rate storage. -/
theorem C4_exactly_one_mode (di freq di2 f2 nr : Nat) (inh : Bool)
    (a : Attr) (hadj : adjustRates di freq = some (di2, f2))
    (hfb : a.freqBit = false) :
    ((freqModeActive (configureAttr di2 f2 nr inh a) ∧
      ¬ periodModeActive (configureAttr di2 f2 nr inh a)) ∨
     (periodModeActive (configureAttr di2 f2 nr inh a) ∧
      ¬ freqModeActive (configureAttr di2 f2 nr inh a)))
    ∧ (di = 0 → a.periodOrFreq = 0 →
        freqModeActive (configureAttr di2 f2 nr inh a) ∧
        (configureAttr di2 f2 nr inh a).periodOrFreq = freq)
    ∧ (di ≠ 0 → a.periodOrFreq = 0 →
        periodModeActive (configureAttr di2 f2 nr inh a) ∧
        (configureAttr di2 f2 nr inh a).periodOrFreq = di)
    ∧ (∀ (o : Attr → Option Nat) (n : Nat) (fin : Attr) (k : Nat),
        evselOpenLoop o (configureAttr di2 f2 nr inh a) n = .ok fin k →
        fin.freqBit = (configureAttr di2 f2 nr inh a).freqBit ∧
        fin.periodOrFreq = (configureAttr di2 f2 nr inh a).periodOrFreq) := by
  have hb : (configureAttr di2 f2 nr inh a).freqBit =
      if f2 ≠ 0 then true else a.freqBit := by
    unfold configureAttr
    rw [startAttr_freqBit, fillPeriod_freqBit]
  have hq : (configureAttr di2 f2 nr inh a).periodOrFreq =
      if f2 ≠ 0 then f2
      else if a.periodOrFreq ≠ 0 then a.periodOrFreq else di2 := by
    unfold configureAttr
    rw [startAttr_periodOrFreq, fillPeriod_periodOrFreq]
  have hpres : ∀ (o : Attr → Option Nat) (n : Nat) (fin : Attr) (k : Nat),
      evselOpenLoop o (configureAttr di2 f2 nr inh a) n = .ok fin k →
      fin.freqBit = (configureAttr di2 f2 nr inh a).freqBit ∧
      fin.periodOrFreq = (configureAttr di2 f2 nr inh a).periodOrFreq := by
    intro o n fin k h
    rcases evselOpenLoop_ok_shape o _ n fin k h with ⟨hfin, _⟩ | ⟨hfin, _⟩
    · rw [hfin]; exact ⟨rfl, rfl⟩
    · rw [hfin]; exact ⟨rfl, rfl⟩
  unfold adjustRates at hadj
  split_ifs at hadj with h1 h2
  · have hdf : di2 = di ∧ f2 = 0 := by
      simp only [Option.some.injEq, Prod.mk.injEq] at hadj
      exact ⟨hadj.1.symm, hadj.2.symm⟩
    obtain ⟨hdi2, hf2⟩ := hdf
    have hb2 : (configureAttr di2 f2 nr inh a).freqBit = false := by
      rw [hb, hf2]; simp [hfb]
    have hq2 : (configureAttr di2 f2 nr inh a).periodOrFreq =
        if a.periodOrFreq ≠ 0 then a.periodOrFreq else di := by
      rw [hq, hf2, hdi2]; simp
    refine ⟨Or.inr ⟨⟨hb2, ?_⟩, by simp [freqModeActive, hb2]⟩,
      fun hdi0 => absurd hdi0 h1, fun _ hap => ⟨⟨hb2, ?_⟩, ?_⟩, hpres⟩
    · rw [hq2]
      by_cases hap : a.periodOrFreq ≠ 0 <;> simp [hap, h1]
    · rw [hq2, if_neg (by simp [hap])]
      exact h1
    · rw [hq2, if_neg (by simp [hap])]
  · have hdf : di2 = freq ∧ f2 = freq := by
      simp only [Option.some.injEq, Prod.mk.injEq] at hadj
      exact ⟨hadj.1.symm, hadj.2.symm⟩
    obtain ⟨hdi2, hf2⟩ := hdf
    have hb2 : (configureAttr di2 f2 nr inh a).freqBit = true := by
      rw [hb, hf2]; simp [h2]
    have hq2 : (configureAttr di2 f2 nr inh a).periodOrFreq = freq := by
      rw [hq, hf2]; simp [h2]
    refine ⟨Or.inl ⟨hb2, by simp [periodModeActive, hb2]⟩,
      fun _ _ => ⟨hb2, hq2⟩, ?_, hpres⟩
    intro hdi hap
    exact absurd (by simpa using h1) hdi

/-- C4 witness: with frequency 1000 requested and no explicit count, a
fresh default descriptor ends in frequency mode at rate 1000, and in
exactly one mode. -/
theorem C4_witness :
    freqModeActive (configureAttr 1000 1000 1 false attr0) ∧
    (configureAttr 1000 1000 1 false attr0).periodOrFreq = 1000 :=
  (C4_exactly_one_mode 0 1000 1000 1000 1 false attr0 rfl rfl).2.1 rfl rfl

/-- C6: with the requested frequency and the fallback default period
both zero the command fails with the negative invalid-configuration
status -EINVAL, and the outcome is the same for every open oracle, so no
descriptor open attempt can have been made. -/
theorem C6_zero_rates_fatal (o : Attr → Option Nat) (inh : Bool)
    (attrs : List Attr) :
    cmd_htop_model o 0 0 inh attrs = .configError (-(EINVAL : Int))
    ∧ (-(EINVAL : Int)) < 0
    ∧ (∀ o2 : Attr → Option Nat,
        cmd_htop_model o 0 0 inh attrs = cmd_htop_model o2 0 0 inh attrs) := by
  refine ⟨by simp [cmd_htop_model, adjustRates],
    by norm_num [EINVAL], fun o2 => ?_⟩
  simp [cmd_htop_model, adjustRates]

/-! ## Sample-identifier demultiplexing setup -/

theorem startAttr_multi (f nr : Nat) (inh : Bool) (a : Attr)
    (hn : nr > 1) :
    (startAttr f nr inh a).sample_type.testBit 6 = true ∧
    (startAttr f nr inh a).read_format.testBit 2 = true := by
  have h4 : Nat.testBit 4 2 = true := by decide
  constructor
  · by_cases hf : f ≠ 0 <;>
      simp [startAttr, hf, hn, PERF_SAMPLE_IP, PERF_SAMPLE_TID,
        PERF_SAMPLE_PERIOD, PERF_SAMPLE_ID] <;> decide
  · by_cases hf : f ≠ 0 <;>
      simp [startAttr, hf, hn, PERF_FORMAT_ID, Nat.testBit_or, h4]

theorem startAttr_single (f nr : Nat) (inh : Bool) (a : Attr)
    (hn : ¬ nr > 1) :
    (startAttr f nr inh a).sample_type.testBit 6 = false ∧
    (startAttr f nr inh a).read_format = a.read_format := by
  constructor
  · by_cases hf : f ≠ 0 <;>
      simp [startAttr, hf, hn, PERF_SAMPLE_IP, PERF_SAMPLE_TID,
        PERF_SAMPLE_PERIOD] <;> decide
  · by_cases hf : f ≠ 0 <;> simp [startAttr, hf, hn]

/-- C7: when the event list holds more than one descriptor, the
negotiation setup enables the sample-identifier bit in every descriptor
sample_type and the identifier bit in its read_format; with a single
descriptor the sample-identifier bit is not enabled and the read_format
is left untouched. -/
theorem C7_sample_id_demux (attrs : List Attr) (freq : Nat) (inh : Bool) :
    (attrs.length > 1 → ∀ a ∈ attrs,
       (startAttr freq attrs.length inh a).sample_type.testBit 6 = true ∧
       (startAttr freq attrs.length inh a).read_format.testBit 2 = true)
    ∧ (attrs.length = 1 → ∀ a ∈ attrs,
       (startAttr freq attrs.length inh a).sample_type.testBit 6 = false ∧
       (startAttr freq attrs.length inh a).read_format = a.read_format) := by
  constructor
  · intro hl a _
    exact startAttr_multi freq attrs.length inh a hl
  · intro hl a _
    exact startAttr_single freq attrs.length inh a (by omega)

/-- C7 witness: with two descriptors the identifier bit is set, with one
it is not. -/
theorem C7_witness :
    (startAttr 1000 2 false attr0).sample_type.testBit 6 = true ∧
    (startAttr 1000 1 false attr0).sample_type.testBit 6 = false :=
  ⟨((C7_sample_id_demux [attr0, cyclesAttr] 1000 false).1 (by decide)
      attr0 (List.mem_cons_self _ _)).1,
   ((C7_sample_id_demux [attr0] 1000 false).2 rfl
      attr0 (List.mem_cons_self _ _)).1⟩

/-! ## Steady-state loop termination -/

/-- C9: one iteration of the steady-state loop waits exactly when the
drain pass aggregated nothing (total_period unchanged), exits exactly
when such a wait returns an error, never exits without having waited,
and its wait is bounded by the 100 ms timeout. -/
theorem C9_loop_exit_iff (total drained : Nat) (pollFn : Nat → Int) :
    ((samplingLoopIter total drained pollFn).exitLoop = true ↔
      (total = drained ∧ pollFn idleWaitMsecs < 0))
    ∧ ((samplingLoopIter total drained pollFn).waited = true ↔
      total = drained)
    ∧ ((samplingLoopIter total drained pollFn).exitLoop = true →
      (samplingLoopIter total drained pollFn).waited = true)
    ∧ idleWaitMsecs = 100 := by
  unfold samplingLoopIter
  split_ifs with h1 h2 <;> simp_all [idleWaitMsecs]

/-- C9 witness: an idle pass whose wait errors exits the loop. -/
theorem C9_witness :
    (samplingLoopIter 5 5 (fun _ => -1)).exitLoop = true :=
  (C9_loop_exit_iff 5 5 (fun _ => -1)).1.mpr ⟨rfl, by decide⟩

/-! ## Unmatched sample identifiers -/

/-- C10: a successfully parsed sample record whose sample identifier is
owned by no open descriptor leaves the state —histogram tables, session
total, event counters and error log— exactly unchanged, for any
behaviour of the non-sample record handler. -/
theorem C10_unmatched_id_dropped (otherFn : EvState → EvState)
    (st : EvState) (sid : Nat) (pre : Option Sample)
    (h : perf_evlist__id2evsel st.evsels sid = none) :
    perf_evlist__process_event otherFn st
      (.parsed PERF_RECORD_SAMPLE sid pre) = st := by
  simp [perf_evlist__process_event, h]

/-- C10 witness: identifier 2 matches no evsel owning only identifier 1,
and the record is silently dropped. -/
theorem C10_witness :
    perf_evlist__process_event (fun s => s) evStateW
      (.parsed PERF_RECORD_SAMPLE 2 none) = evStateW :=
  C10_unmatched_id_dropped (fun s => s) evStateW 2 none (by decide)

end Htop
